import Mathlib

/-!
# Verification of the EMU7800 core emulation engine

Shallow embedding of the parts of the emulator core that the verified
properties are about, translated from the Python sources:

* `emu7800/core/m6502.py`   — 6502 CPU (decimal ADC, RTI/PLP, undefined opcodes)
* `emu7800/core/tia.py`     — VSC-A WSYNC stall
* `emu7800/core/pia.py`     — I/O timer chip (6532 RIOT) timer and ports
* `emu7800/core/maria.py`   — DPU-B line-RAM building and output
* `emu7800/core/carts/cart_2600.py` — F8 mapper, DPC LFSR
* `emu7800/core/machine_7800.py`    — DMA billing in the frame loop
* `emu7800/core/input_state.py`     — double-buffered input state

Machine integers are modelled as `Nat` (with explicit `&&&`/`%` masking
exactly where the Python code masks) and as `Int` where the Python value
can go negative (CPU clock arithmetic, timer deltas, cycle budgets).
-/

/-! ## 6502 CPU (`m6502.py`) -/

/-- Carry flag mask (`M6502.FLAG_C`). -/
def FLAG_C : Nat := 0x01

/-- Zero flag mask (`M6502.FLAG_Z`). -/
def FLAG_Z : Nat := 0x02

/-- Interrupt-disable flag mask (`M6502.FLAG_I`). -/
def FLAG_I : Nat := 0x04

/-- Decimal flag mask (`M6502.FLAG_D`). -/
def FLAG_D : Nat := 0x08

/-- Break flag mask (`M6502.FLAG_B`). -/
def FLAG_B : Nat := 0x10

/-- Overflow flag mask (`M6502.FLAG_V`). -/
def FLAG_V : Nat := 0x40

/-- Negative flag mask (`M6502.FLAG_N`). -/
def FLAG_N : Nat := 0x80

/-- The flag setters (`fC.setter` … `fN.setter`): `p |= FLAG` on set,
`p &= ~FLAG & 0xFF` on clear.  For `mask < 256`, Python's
`~mask & 0xFF` equals `0xFF ^^^ mask`. -/
def setFlag (p mask : Nat) (b : Bool) : Nat :=
  if b then p ||| mask else p &&& (0xFF ^^^ mask)

/-- CPU state (`M6502` fields used by the verified instructions).
`mem` stands for `machine.mem[...]`; reads return bytes.  `rcm` is
`run_clocks_multiple`. -/
structure CpuState where
  pc : Nat
  a : Nat
  x : Nat
  y : Nat
  s : Nat
  p : Nat
  clock : Int
  runClocks : Int
  rcm : Nat
  mem : Nat → Nat

/-- `M6502.clk`: advance the clock and consume run clocks. -/
def clk (st : CpuState) (ticks : Nat) : CpuState :=
  { st with clock := st.clock + ticks,
            runClocks := st.runClocks - ticks * st.rcm }

/-- `M6502.i_adc` on `(a, p)`: add `val` with carry, including the NMOS
decimal-mode quirks.  Returns the new `(a, p)`.  Python's
`~(a ^ val) & (a ^ s) & 0x80` is written with `0xFF ^^^ (a ^^^ val)`:
both agree on bit 7 whenever `a` and `val` are bytes, and only bit 7
survives the `&&& 0x80`. -/
def i_adc (a p val : Nat) : Nat × Nat :=
  let c : Nat := if p &&& FLAG_C ≠ 0 then 1 else 0
  if p &&& FLAG_D ≠ 0 then
    let al := (a &&& 0x0F) + (val &&& 0x0F) + c
    let al := if 0x0A ≤ al then ((al + 0x06) &&& 0x0F) + 0x10 else al
    let s := (a &&& 0xF0) + (val &&& 0xF0) + al
    let p := setFlag p FLAG_N (s &&& 0x80 ≠ 0)
    let p := setFlag p FLAG_V ((0xFF ^^^ (a ^^^ val)) &&& (a ^^^ s) &&& 0x80 ≠ 0)
    let s := if 0xA0 ≤ s then s + 0x60 else s
    let p := setFlag p FLAG_C (0x100 ≤ s)
    let p := setFlag p FLAG_Z ((a + val + c) &&& 0xFF = 0)
    (s &&& 0xFF, p)
  else
    let s := a + val + c
    let p := setFlag p FLAG_V ((0xFF ^^^ (a ^^^ val)) &&& (a ^^^ s) &&& 0x80 ≠ 0)
    let p := setFlag p FLAG_C (0xFF < s)
    let a := s &&& 0xFF
    let p := setFlag p FLAG_N (a &&& 0x80 ≠ 0)
    let p := setFlag p FLAG_Z (a &&& 0xFF = 0)
    (a, p)

/-- One `M6502.execute` iteration for opcode `0x69` (`ADC #imm`): fetch
the opcode byte at `pc`, then `op_69` (fetch immediate, `i_adc`,
`clk(2)`).  Only meaningful when `st.mem st.pc = 0x69`. -/
def stepAdcImm (st : CpuState) : CpuState :=
  let pc1 := (st.pc + 1) &&& 0xFFFF
  let v := st.mem pc1
  let pc2 := (pc1 + 1) &&& 0xFFFF
  let ap := i_adc st.a st.p v
  clk { st with pc := pc2, a := ap.1, p := ap.2 } 2

/-! ## Bitwise bridge lemmas

Helper facts connecting the byte masking used by the sources
(`&&& 0x0F`, `&&& 0xFF`, `&&& 0x80`, …) with ordinary arithmetic. -/

lemma and_15_eq_mod (x : Nat) : x &&& 0x0F = x % 16 := by
  simpa using Nat.and_pow_two_sub_one_eq_mod x 4

lemma and_255_eq_mod (x : Nat) : x &&& 0xFF = x % 256 := by
  simpa using Nat.and_pow_two_sub_one_eq_mod x 8

lemma and_shiftLeft_mask (x m n : Nat) :
    x &&& (m <<< n) = ((x >>> n) &&& m) <<< n := by
  apply Nat.eq_of_testBit_eq
  intro i
  simp only [Nat.testBit_and, Nat.testBit_shiftLeft, Nat.testBit_shiftRight]
  by_cases h : n ≤ i
  · have : n + (i - n) = i := by omega
    simp [h, this]
  · simp [h]

lemma and_240_eq (x : Nat) : x &&& 0xF0 = x / 16 % 16 * 16 := by
  have h : (0xF0 : Nat) = 0x0F <<< 4 := by decide
  rw [h, and_shiftLeft_mask, and_15_eq_mod, Nat.shiftRight_eq_div_pow,
    Nat.shiftLeft_eq]

lemma testBit7_iff (x : Nat) : x.testBit 7 = true ↔ 128 ≤ x % 256 := by
  rw [Nat.testBit_to_div_mod]
  simp only [decide_eq_true_eq]
  omega

lemma and_128_ne_zero_iff (x : Nat) : x &&& 0x80 ≠ 0 ↔ 128 ≤ x % 256 := by
  have h : (0x80 : Nat) = 2 ^ 7 := by norm_num
  rw [h, Nat.and_two_pow]
  rcases hb : x.testBit 7 with _ | _
  · simp [← testBit7_iff, hb]
  · simp [← testBit7_iff, hb]

lemma testBit_255 (i : Nat) : (0xFF : Nat).testBit i = decide (i < 8) := by
  rw [show (0xFF : Nat) = 2 ^ 8 - 1 by norm_num, Nat.testBit_two_pow_sub_one]

lemma setFlag_and_self (p : Nat) (b : Bool) (i : Nat) (hi : i < 8) :
    setFlag p (2 ^ i) b &&& 2 ^ i = if b then 2 ^ i else 0 := by
  cases b
  · simp only [setFlag, if_neg Bool.false_ne_true, if_false]
    rw [Nat.and_assoc, Nat.and_two_pow]
    simp [Nat.testBit_xor, testBit_255, Nat.testBit_two_pow_self, hi]
  · simp only [setFlag, if_true]
    rw [Nat.and_two_pow]
    simp [Nat.testBit_or, Nat.testBit_two_pow_self]

lemma setFlag_and_other (p : Nat) (b : Bool) (i j : Nat) (hj : j < 8)
    (hij : i ≠ j) : setFlag p (2 ^ i) b &&& 2 ^ j = p &&& 2 ^ j := by
  cases b
  · simp only [setFlag, if_neg Bool.false_ne_true, if_false]
    rw [Nat.and_assoc, Nat.and_two_pow, Nat.and_two_pow]
    simp [Nat.testBit_and, Nat.testBit_xor, testBit_255,
      Nat.testBit_two_pow_of_ne hij, hj]
    exact Nat.and_two_pow ..
  · simp only [setFlag, if_true]
    rw [Nat.and_two_pow, Nat.and_two_pow]
    simp [Nat.testBit_or, Nat.testBit_two_pow_of_ne hij]

lemma overflow_bit_iff (a val s : Nat) (ha : a < 256) (hv : val < 256) :
    (0xFF ^^^ (a ^^^ val)) &&& (a ^^^ s) &&& 0x80 ≠ 0 ↔
      ((128 ≤ a ↔ 128 ≤ val) ∧ ¬(128 ≤ a ↔ 128 ≤ s % 256)) := by
  have h2 : (0xFF ^^^ (a ^^^ val)) &&& (a ^^^ s) &&& 0x80 =
      (((0xFF ^^^ (a ^^^ val)) &&& (a ^^^ s)).testBit 7).toNat * 128 := by
    simpa using Nat.and_two_pow ((0xFF ^^^ (a ^^^ val)) &&& (a ^^^ s)) 7
  have h255 : (0xFF : Nat).testBit 7 = true := by decide
  have hxa := (testBit7_iff a).symm
  have hxv := (testBit7_iff val).symm
  have hxs := (testBit7_iff s).symm
  rw [Nat.mod_eq_of_lt ha] at hxa
  rw [Nat.mod_eq_of_lt hv] at hxv
  rw [h2]
  simp only [Nat.testBit_and, Nat.testBit_xor, h255]
  rcases hA : a.testBit 7 <;> rcases hV : val.testBit 7 <;>
    rcases hS : s.testBit 7 <;>
    rw [hA] at hxa <;> rw [hV] at hxv <;> rw [hS] at hxs <;>
    simp at hxa hxv hxs <;> simp [hxa, hxv, hxs] <;> omega

/-! ## C1: NMOS decimal-mode ADC -/

/-- Spec side: "compute low nibble sum including carry". -/
def bcdLowNibbleSum (a val c : Nat) : Nat := a % 16 + val % 16 + c

/-- Spec side: "apply decimal adjust" to the low-nibble sum. -/
def bcdAdjustLow (al : Nat) : Nat := if 10 ≤ al then (al + 6) % 16 + 16 else al

/-- Spec side: the BCD-adjusted intermediate result (high nibbles plus
adjusted low-nibble sum). -/
def bcdIntermediate (a val c : Nat) : Nat :=
  a / 16 * 16 + val / 16 * 16 + bcdAdjustLow (bcdLowNibbleSum a val c)

/-- Spec side: the post-adjust result (plus `0x60` when the intermediate
reaches `0xA0`). -/
def bcdPostAdjust (i : Nat) : Nat := if 160 ≤ i then i + 96 else i

/-- The carry-in bit used by `i_adc` (`c = 1 if self.fC else 0`). -/
def adcCarryIn (p : Nat) : Nat := if p &&& FLAG_C ≠ 0 then 1 else 0

lemma code_inter_eq (a val c : Nat) (ha : a < 256) (hv : val < 256) :
    (a &&& 0xF0) + (val &&& 0xF0) +
      (if 0x0A ≤ (a &&& 0x0F) + (val &&& 0x0F) + c then
        (((a &&& 0x0F) + (val &&& 0x0F) + c + 0x06) &&& 0x0F) + 0x10
      else (a &&& 0x0F) + (val &&& 0x0F) + c) =
    bcdIntermediate a val c := by
  simp only [and_240_eq, and_15_eq_mod]
  unfold bcdIntermediate bcdAdjustLow bcdLowNibbleSum
  have h1 : a / 16 % 16 = a / 16 := by omega
  have h2 : val / 16 % 16 = val / 16 := by omega
  rw [h1, h2]

lemma adcFlags_and_Z (p : Nat) (bN bV bC bZ : Bool) :
    setFlag (setFlag (setFlag (setFlag p FLAG_N bN) FLAG_V bV) FLAG_C bC)
        FLAG_Z bZ &&& FLAG_Z = if bZ then FLAG_Z else 0 := by
  rw [show FLAG_Z = 2 ^ 1 from by norm_num [FLAG_Z]]
  exact setFlag_and_self _ bZ 1 (by norm_num)

lemma adcFlags_and_C (p : Nat) (bN bV bC bZ : Bool) :
    setFlag (setFlag (setFlag (setFlag p FLAG_N bN) FLAG_V bV) FLAG_C bC)
        FLAG_Z bZ &&& FLAG_C = if bC then FLAG_C else 0 := by
  rw [show FLAG_Z = 2 ^ 1 from by norm_num [FLAG_Z],
    show FLAG_C = 2 ^ 0 from by norm_num [FLAG_C]]
  rw [setFlag_and_other _ bZ 1 0 (by norm_num) (by norm_num)]
  exact setFlag_and_self _ bC 0 (by norm_num)

lemma adcFlags_and_N (p : Nat) (bN bV bC bZ : Bool) :
    setFlag (setFlag (setFlag (setFlag p FLAG_N bN) FLAG_V bV) FLAG_C bC)
        FLAG_Z bZ &&& FLAG_N = if bN then FLAG_N else 0 := by
  rw [show FLAG_Z = 2 ^ 1 from by norm_num [FLAG_Z],
    show FLAG_C = 2 ^ 0 from by norm_num [FLAG_C],
    show FLAG_V = 2 ^ 6 from by norm_num [FLAG_V],
    show FLAG_N = 2 ^ 7 from by norm_num [FLAG_N]]
  rw [setFlag_and_other _ bZ 1 7 (by norm_num) (by norm_num),
    setFlag_and_other _ bC 0 7 (by norm_num) (by norm_num),
    setFlag_and_other _ bV 6 7 (by norm_num) (by norm_num)]
  exact setFlag_and_self _ bN 7 (by norm_num)

lemma adcFlags_and_V (p : Nat) (bN bV bC bZ : Bool) :
    setFlag (setFlag (setFlag (setFlag p FLAG_N bN) FLAG_V bV) FLAG_C bC)
        FLAG_Z bZ &&& FLAG_V = if bV then FLAG_V else 0 := by
  rw [show FLAG_Z = 2 ^ 1 from by norm_num [FLAG_Z],
    show FLAG_C = 2 ^ 0 from by norm_num [FLAG_C],
    show FLAG_V = 2 ^ 6 from by norm_num [FLAG_V]]
  rw [setFlag_and_other _ bZ 1 6 (by norm_num) (by norm_num),
    setFlag_and_other _ bC 0 6 (by norm_num) (by norm_num)]
  exact setFlag_and_self _ bV 6 (by norm_num)

/-- Concrete C1 scenario: A = 0x56, P = 0x28 (D set, C clear, bit 5 set),
`ADC #$50` at PC = 0x1000. -/
def adcScenario : CpuState :=
  { pc := 0x1000, a := 0x56, x := 0, y := 0, s := 0xFF, p := 0x28,
    clock := 0, runClocks := 100, rcm := 1,
    mem := fun addr =>
      if addr = 0x1000 then 0x69 else if addr = 0x1001 then 0x50 else 0 }

/-- C1: Decimal-mode ADC (D=1) computes the low-nibble sum including
carry and applies decimal adjustment; N and V are derived from the
BCD-adjusted intermediate result, Z from the pure binary sum, and C
from the post-adjust result being ≥ 0x100.  In particular, from
A = 0x56, D = 1, C = 0, executing `ADC #$50` yields A = 0x06, C = 1,
Z = 0, N = 1, V = 1. -/
theorem adc_decimal_mode_correct :
    (∀ a p val : Nat, a < 256 → val < 256 → p &&& FLAG_D ≠ 0 →
      (i_adc a p val).1 =
          bcdPostAdjust (bcdIntermediate a val (adcCarryIn p)) % 256 ∧
      ((i_adc a p val).2 &&& FLAG_N ≠ 0 ↔
        128 ≤ bcdIntermediate a val (adcCarryIn p) % 256) ∧
      ((i_adc a p val).2 &&& FLAG_V ≠ 0 ↔
        ((128 ≤ a ↔ 128 ≤ val) ∧
          ¬(128 ≤ a ↔ 128 ≤ bcdIntermediate a val (adcCarryIn p) % 256))) ∧
      ((i_adc a p val).2 &&& FLAG_C ≠ 0 ↔
        256 ≤ bcdPostAdjust (bcdIntermediate a val (adcCarryIn p))) ∧
      ((i_adc a p val).2 &&& FLAG_Z ≠ 0 ↔
        (a + val + adcCarryIn p) % 256 = 0)) ∧
    (stepAdcImm adcScenario).a = 0x06 ∧
    (stepAdcImm adcScenario).p &&& FLAG_C ≠ 0 ∧
    (stepAdcImm adcScenario).p &&& FLAG_Z = 0 ∧
    (stepAdcImm adcScenario).p &&& FLAG_N ≠ 0 ∧
    (stepAdcImm adcScenario).p &&& FLAG_V ≠ 0 := by
  constructor
  · intro a p val ha hv hd
    simp only [i_adc]
    rw [if_pos hd]
    dsimp only
    rw [show (if p &&& FLAG_C ≠ 0 then (1 : Nat) else 0) = adcCarryIn p
      from rfl]
    rw [code_inter_eq a val (adcCarryIn p) ha hv]
    refine ⟨?_, ?_, ?_, ?_, ?_⟩
    · rw [and_255_eq_mod]
      simp only [bcdPostAdjust]
    · rw [adcFlags_and_N, ← and_128_ne_zero_iff]
      by_cases hb : bcdIntermediate a val (adcCarryIn p) &&& 0x80 ≠ 0 <;>
        simp [hb, FLAG_N]
    · rw [adcFlags_and_V,
        ← overflow_bit_iff a val (bcdIntermediate a val (adcCarryIn p)) ha hv]
      by_cases hb : (0xFF ^^^ (a ^^^ val)) &&&
          (a ^^^ bcdIntermediate a val (adcCarryIn p)) &&& 0x80 ≠ 0 <;>
        simp [hb, FLAG_V]
    · rw [adcFlags_and_C]
      simp only [bcdPostAdjust]
      by_cases hb : (0x100 : Nat) ≤
          (if 0xA0 ≤ bcdIntermediate a val (adcCarryIn p) then
            bcdIntermediate a val (adcCarryIn p) + 0x60
          else bcdIntermediate a val (adcCarryIn p)) <;>
        simp [hb, FLAG_C]
    · rw [adcFlags_and_Z, and_255_eq_mod]
      by_cases hb : (a + val + adcCarryIn p) % 256 = 0 <;> simp [hb, FLAG_Z]
  · refine ⟨by decide, by decide, by decide, by decide, by decide⟩

/-- Witness for C1: the general statement applied at the scenario's
concrete values A = 0x56, P = 0x28, operand 0x50. -/
theorem adc_decimal_mode_witness :
    (i_adc 0x56 0x28 0x50).1 =
      bcdPostAdjust (bcdIntermediate 0x56 0x50 (adcCarryIn 0x28)) % 256 :=
  (adc_decimal_mode_correct.1 0x56 0x28 0x50 (by decide) (by decide)
    (by decide)).1

/-! ## C3: register-width / P-bit-5 invariant (RTI and PLP) -/

/-- `M6502.pull`: increment S (mod 256), read `mem[0x100 + s]`. -/
def pull (st : CpuState) : Nat × CpuState :=
  let s1 := (st.s + 1) &&& 0xFF
  (st.mem (0x100 + s1), { st with s := s1 })

/-- `M6502.i_rti`: `p = pull(); pc = pull() | pull() << 8; fB = True`.
Note that, unlike `i_plp`, the restored P is *not* or-ed with 0x20. -/
def i_rti (st : CpuState) : CpuState :=
  let r1 := pull st
  let st1 := { r1.2 with p := r1.1 }
  let r2 := pull st1
  let r3 := pull r2.2
  { r3.2 with pc := r2.1 ||| (r3.1 <<< 8),
              p := setFlag r3.2.p FLAG_B true }

/-- `M6502.i_plp`: `p = (pull() | 0x20) & 0xFF` (bit 5 always set). -/
def i_plp (st : CpuState) : CpuState :=
  let r := pull st
  { r.2 with p := (r.1 ||| 0x20) &&& 0xFF }

/-- One `execute` iteration for opcode 0x40 (`RTI`): fetch, `i_rti`,
`clk(6)`. -/
def stepRti (st : CpuState) : CpuState :=
  clk (i_rti { st with pc := (st.pc + 1) &&& 0xFFFF }) 6

/-- One `execute` iteration for opcode 0x28 (`PLP`): fetch, `i_plp`,
`clk(4)`. -/
def stepPlp (st : CpuState) : CpuState :=
  clk (i_plp { st with pc := (st.pc + 1) &&& 0xFFFF }) 4

/-- C3 failing state: an `RTI` at 0x2000 whose stacked P byte (at
0x01F1) has bit 5 clear.  The P register starts with bit 5 set. -/
def rtiScenario : CpuState :=
  { pc := 0x2000, a := 0, x := 0, y := 0, s := 0xF0, p := 0xFF,
    clock := 0, runClocks := 100, rcm := 1,
    mem := fun addr =>
      if addr = 0x2000 then 0x40
      else if addr = 0x1F1 then 0x00
      else if addr = 0x1F2 then 0x34
      else if addr = 0x1F3 then 0x12 else 0 }

/-- The same stack image with a `PLP` opcode instead. -/
def plpScenario : CpuState :=
  { rtiScenario with
    mem := fun addr => if addr = 0x2000 then 0x28 else rtiScenario.mem addr }

/-- C3: executing `RTI` with a stacked P byte whose bit 5 is clear
leaves bit 5 of P clear (violating the "bit 5 always reads 1"
invariant), while `PLP` on the same stack image forces bit 5 set —
`i_rti` omits the `| 0x20` that `i_plp` applies. -/
theorem rti_drops_p_bit5 :
    (stepRti rtiScenario).p &&& 0x20 = 0 ∧
    (stepRti rtiScenario).p = 0x10 ∧
    (stepRti rtiScenario).pc = 0x1234 ∧
    (stepPlp plpScenario).p &&& 0x20 = 0x20 := by
  refine ⟨by decide, by decide, by decide, by decide⟩

/-! ## C9: undefined opcodes -/

/-- The 188 opcode values given handlers in `_build_opcode_table`
(`t[0x..] = op_..`); every other byte keeps the `_make_undefined`
handler. -/
def definedOpcodes : List Nat :=
  [0x00, 0x01, 0x02, 0x04, 0x05, 0x06, 0x08, 0x09, 0x0A, 0x0B, 0x0C, 0x0D,
   0x0E, 0x10, 0x11, 0x12, 0x15, 0x16, 0x18, 0x19, 0x1C, 0x1D, 0x1E, 0x20,
   0x21, 0x22, 0x24, 0x25, 0x26, 0x28, 0x29, 0x2A, 0x2B, 0x2C, 0x2D, 0x2E,
   0x30, 0x31, 0x32, 0x35, 0x36, 0x38, 0x39, 0x3C, 0x3D, 0x3E, 0x3F, 0x40,
   0x41, 0x42, 0x45, 0x46, 0x48, 0x49, 0x4A, 0x4B, 0x4C, 0x4D, 0x4E, 0x50,
   0x51, 0x52, 0x55, 0x56, 0x58, 0x59, 0x5C, 0x5D, 0x5E, 0x60, 0x61, 0x62,
   0x65, 0x66, 0x68, 0x69, 0x6A, 0x6C, 0x6D, 0x6E, 0x70, 0x71, 0x72, 0x75,
   0x76, 0x78, 0x79, 0x7C, 0x7D, 0x7E, 0x81, 0x83, 0x84, 0x85, 0x86, 0x87,
   0x88, 0x8A, 0x8C, 0x8D, 0x8E, 0x8F, 0x90, 0x91, 0x92, 0x94, 0x95, 0x96,
   0x97, 0x98, 0x99, 0x9A, 0x9C, 0x9D, 0xA0, 0xA1, 0xA2, 0xA3, 0xA4, 0xA5,
   0xA6, 0xA7, 0xA8, 0xA9, 0xAA, 0xAC, 0xAD, 0xAE, 0xAF, 0xB0, 0xB1, 0xB2,
   0xB3, 0xB4, 0xB5, 0xB6, 0xB7, 0xB8, 0xB9, 0xBA, 0xBC, 0xBD, 0xBE, 0xBF,
   0xC0, 0xC1, 0xC4, 0xC5, 0xC6, 0xC8, 0xC9, 0xCA, 0xCC, 0xCD, 0xCE, 0xD0,
   0xD1, 0xD2, 0xD5, 0xD6, 0xD8, 0xD9, 0xDC, 0xDD, 0xDE, 0xE0, 0xE1, 0xE4,
   0xE5, 0xE6, 0xE8, 0xE9, 0xEA, 0xEC, 0xED, 0xEE, 0xEF, 0xF0, 0xF1, 0xF2,
   0xF5, 0xF6, 0xF8, 0xF9, 0xFC, 0xFD, 0xFE, 0xFF]

/-- One `execute` iteration when the fetched opcode is not in
`definedOpcodes`: the fetch advances PC, and the `_make_undefined`
handler only (optionally logs and) charges `clk(2)`. -/
def stepUndefined (st : CpuState) : CpuState :=
  clk { st with pc := (st.pc + 1) &&& 0xFFFF } 2

/-- A concrete state fetching the undefined opcode 0x03 at PC 0x1234. -/
def undefScenario : CpuState :=
  { pc := 0x1234, a := 5, x := 6, y := 7, s := 0xFD, p := 0x24,
    clock := 10, runClocks := 50, rcm := 4, mem := fun _ => 0x03 }

/-- C9 counterexample: an undefined opcode is charged 2 cycles but PC
does change — it advances past the opcode byte, so "all CPU registers
(including PC) hold the same values" is false. -/
theorem undefined_opcode_pc_advances :
    undefScenario.mem undefScenario.pc ∉ definedOpcodes ∧
    (stepUndefined undefScenario).pc = 0x1235 ∧
    (stepUndefined undefScenario).pc ≠ undefScenario.pc ∧
    (stepUndefined undefScenario).clock = undefScenario.clock + 2 := by
  refine ⟨by decide, by decide, by decide, by decide⟩

/-- C9 (amended): fetching an opcode outside `definedOpcodes` charges
exactly 2 cycles and changes no CPU state other than PC — which
advances by one (mod 2^16) past the opcode byte — and the cycle
counters. -/
theorem undefined_opcode_no_state_change (st : CpuState)
    (h : st.mem st.pc ∉ definedOpcodes) :
    (stepUndefined st).pc = (st.pc + 1) &&& 0xFFFF ∧
    (stepUndefined st).a = st.a ∧
    (stepUndefined st).x = st.x ∧
    (stepUndefined st).y = st.y ∧
    (stepUndefined st).s = st.s ∧
    (stepUndefined st).p = st.p ∧
    (stepUndefined st).mem = st.mem ∧
    (stepUndefined st).clock = st.clock + 2 ∧
    (stepUndefined st).runClocks = st.runClocks - 2 * st.rcm := by
  refine ⟨rfl, rfl, rfl, rfl, rfl, rfl, rfl, rfl, ?_⟩
  simp [stepUndefined, clk]

/-- Witness for C9's amended theorem at the concrete scenario. -/
theorem undefined_opcode_no_state_change_witness :
    (stepUndefined undefScenario).a = undefScenario.a :=
  (undefined_opcode_no_state_change undefScenario (by decide)).2.1

/-! ## C2: WSYNC stall (`tia.py`) -/

/-- `_SCANLINE_CLOCKS` in `tia.py`. -/
def SCANLINE_CLOCKS : Nat := 228

/-- The WSYNC branch of `TIA.poke`: with `hsync_pos = tia_clock % 228`,
when `hsync_pos > 0` the CPU clock advances by
`(228 - hsync_pos + 2) // 3`; otherwise nothing happens. -/
def wsyncCpuDelay (tiaClock : Nat) : Nat :=
  let hsyncPos := tiaClock % SCANLINE_CLOCKS
  if 0 < hsyncPos then (SCANLINE_CLOCKS - hsyncPos + 2) / 3 else 0

/-- C2 counterexample: at hsync position 0 the code stalls 0 CPU
cycles, not the 76 cycles (228 color clocks / 3) the claim states. -/
theorem wsync_zero_pos_no_stall :
    wsyncCpuDelay 0 = 0 ∧ (228 - 0 % 228) / 3 = 76 ∧ wsyncCpuDelay 0 ≠ 76 := by
  refine ⟨by decide, by decide, by decide⟩

/-- C2 (amended): a WSYNC write stalls the CPU only when the current
color-clock position in the scanline is nonzero; the stall is then the
smallest whole number of CPU cycles covering the remaining
`228 - pos` color clocks (ceiling division by 3).  At position 0 there
is no stall; at position 227 the stall is 1 CPU cycle. -/
theorem wsync_stall_ceiling :
    (∀ t : Nat, (t % 228 = 0 → wsyncCpuDelay t = 0) ∧
      (t % 228 ≠ 0 →
        228 - t % 228 ≤ 3 * wsyncCpuDelay t ∧
        3 * wsyncCpuDelay t < 228 - t % 228 + 3)) ∧
    wsyncCpuDelay 227 = 1 := by
  refine ⟨fun t => ⟨?_, ?_⟩, by decide⟩
  · intro h
    simp [wsyncCpuDelay, SCANLINE_CLOCKS, h]
  · intro h
    have hlt : t % 228 < 228 := Nat.mod_lt _ (by norm_num)
    simp only [wsyncCpuDelay, SCANLINE_CLOCKS]
    rw [if_pos (by omega)]
    omega

/-- Witness for C2's amended theorem at position 227. -/
theorem wsync_stall_ceiling_witness :
    228 - 227 % 228 ≤ 3 * wsyncCpuDelay 227 ∧
    3 * wsyncCpuDelay 227 < 228 - 227 % 228 + 3 :=
  (wsync_stall_ceiling.1 227).2 (by decide)

/-! ## C5: 8 KB "F8" cartridge mapper (`CartA8K`) -/

/-- `CartA8K` state: ROM bytes, ROM length, and the bank base address. -/
structure CartA8K where
  rom : Nat → Nat
  romLen : Nat
  bankBaseAddr : Nat

/-- `CartA8K.reset`: power-on defaults to the last 4 KB bank. -/
def cartA8K_reset (c : CartA8K) : CartA8K :=
  { c with bankBaseAddr := c.romLen - 0x1000 }

/-- `CartA8K._check_bank_switch`. -/
def checkBankSwitch (bank addr12 : Nat) : Nat :=
  if addr12 = 0xFF8 then 0x0000
  else if addr12 = 0xFF9 then 0x1000
  else bank

/-- `CartA8K.__getitem__`: check the hotspot, then read through the
(possibly updated) bank base address. -/
def cartA8K_read (c : CartA8K) (addr : Nat) : Nat × CartA8K :=
  let addr12 := addr &&& 0xFFF
  let bank := checkBankSwitch c.bankBaseAddr addr12
  (c.rom (bank + addr12), { c with bankBaseAddr := bank })

/-- C5: for the 8 KB F8 mapper, reset selects the last 4 KB bank
(base 0x1000); reading offset 0xFF8 selects bank 0 and offset 0xFF9
selects bank 1 (base 0x1000); and a second read of 0xFF8 leaves the
cartridge state exactly as after the first (idempotent hotspot). -/
theorem cartA8K_f8_banking :
    (∀ c : CartA8K, c.romLen = 8192 →
      (cartA8K_reset c).bankBaseAddr = 0x1000) ∧
    (∀ c : CartA8K,
      (cartA8K_read c 0xFF8).2.bankBaseAddr = 0x0000 ∧
      (cartA8K_read c 0xFF9).2.bankBaseAddr = 0x1000 ∧
      (cartA8K_read (cartA8K_read c 0xFF8).2 0xFF8).2 =
        (cartA8K_read c 0xFF8).2) := by
  constructor
  · intro c h
    simp [cartA8K_reset, h]
  · intro c
    refine ⟨rfl, rfl, rfl⟩

/-- A concrete 8 KB F8 cartridge for the witness. -/
def f8cart : CartA8K := { rom := fun _ => 0, romLen := 8192, bankBaseAddr := 0 }

/-- Witness for C5 at a concrete 8 KB cartridge. -/
theorem cartA8K_f8_banking_witness :
    (cartA8K_reset f8cart).bankBaseAddr = 0x1000 :=
  cartA8K_f8_banking.1 f8cart rfl

/-! ## C7: DPC 8-bit LFSR (`CartDPC._clock_random`) -/

/-- `CartDPC._clock_random`: feedback bit from bits 3, 4, 5, 7; shift
left into an 8-bit register; a zero result is patched to 1. -/
def clockRandom (r : Nat) : Nat :=
  let bit := ((r >>> 3) ^^^ (r >>> 4) ^^^ (r >>> 5) ^^^ (r >>> 7)) &&& 1
  let r1 := ((r <<< 1) ||| bit) &&& 0xFF
  if r1 = 0 then 1 else r1

/-- The DPC random-seed write register (`CartDPC.__setitem__`, reg 5):
`value if value != 0 else 1`. -/
def dpcSetSeed (value : Nat) : Nat := if value ≠ 0 then value else 1

/-- Tail-recursive n-fold application of `clockRandom` (so that large
concrete evaluations stay shallow). -/
def dpcIterN : Nat → Nat → Nat
  | 0, r => r
  | n + 1, r => dpcIterN n (clockRandom r)

lemma dpcIterN_eq (n r : Nat) : dpcIterN n r = clockRandom^[n] r := by
  induction n generalizing r with
  | zero => rfl
  | succ n ih => rw [dpcIterN, ih, Function.iterate_succ_apply]

/-- Boolean check that every seed in `1..n` returns to itself after 255
LFSR clocks. -/
def dpcCheckSeeds : Nat → Bool
  | 0 => true
  | r + 1 => (dpcIterN 255 (r + 1) == r + 1) && dpcCheckSeeds r

lemma dpcCheckSeeds_spec (n : Nat) (h : dpcCheckSeeds n = true) :
    ∀ r, 0 < r → r ≤ n → dpcIterN 255 r = r := by
  induction n with
  | zero => intro r h1 h2; omega
  | succ n ih =>
    rw [dpcCheckSeeds, Bool.and_eq_true] at h
    intro r h1 h2
    by_cases hr : r = n + 1
    · subst hr; simpa using h.1
    · exact ih h.2 r h1 (by omega)

set_option maxRecDepth 8000 in
set_option maxHeartbeats 4000000 in
lemma dpcCheckSeeds_255 : dpcCheckSeeds 255 = true := by decide

/-- C7: the DPC LFSR has period 255 on nonzero byte seeds; in
particular, after writing seed 0x5A, 255 clocks return the register to
0x5A. -/
theorem dpc_lfsr_period_255 :
    clockRandom^[255] (dpcSetSeed 0x5A) = 0x5A ∧
    ∀ r : Nat, r < 256 → r ≠ 0 → clockRandom^[255] r = r := by
  have hall := dpcCheckSeeds_spec 255 dpcCheckSeeds_255
  constructor
  · rw [show dpcSetSeed 0x5A = 0x5A from rfl, ← dpcIterN_eq]
    exact hall 0x5A (by norm_num) (by norm_num)
  · intro r h1 h2
    rw [← dpcIterN_eq]
    exact hall r (Nat.pos_of_ne_zero h2) (by omega)

/-- Witness for C7's general period statement at the seed 0x5A. -/
theorem dpc_lfsr_period_255_witness : clockRandom^[255] 0x5A = 0x5A :=
  dpc_lfsr_period_255.2 0x5A (by decide) (by decide)

/-! ## C6: I/O timer chip (`pia.py`) -/

/-- `PIA` state (RAM, DDRs, port latches, timer). -/
structure PiaState where
  ram : Nat → Nat
  ddra : Nat
  ddrb : Nat
  writtenPortA : Nat
  writtenPortB : Nat
  timerTarget : Int
  timerShift : Nat
  timerInterruptFlag : Bool
  irqEnabled : Bool

/-- `PIA._TIMER_SHIFTS`: dividers 1, 8, 64, 1024. -/
def TIMER_SHIFTS : List Nat := [0, 3, 6, 10]

/-- Power-on `PIA.__init__` / `reset` state. -/
def piaReset : PiaState :=
  { ram := fun _ => 0, ddra := 0, ddrb := 0, writtenPortA := 0,
    writtenPortB := 0, timerTarget := 0, timerShift := 10,
    timerInterruptFlag := false, irqEnabled := false }

/-- `PIA.poke`: RAM write when bit 9 clear; timer write when bits 2 and
4 set; otherwise port / DDR registers. -/
def piaPoke (pia : PiaState) (cpuClock : Int) (addr data0 : Nat) : PiaState :=
  let data := data0 &&& 0xFF
  if addr &&& 0x200 = 0 then
    { pia with ram := fun i => if i = (addr &&& 0x7F) then data else pia.ram i }
  else if addr &&& 0x04 ≠ 0 then
    if addr &&& 0x10 ≠ 0 then
      let shift := TIMER_SHIFTS.getD (addr &&& 0x03) 0
      { pia with timerShift := shift,
                 timerTarget := cpuClock + ((data <<< shift : Nat) : Int),
                 timerInterruptFlag := false,
                 irqEnabled := addr &&& 0x08 != 0 }
    else pia
  else
    let reg := addr &&& 0x03
    if reg = 0 then { pia with writtenPortA := data }
    else if reg = 1 then { pia with ddra := data }
    else if reg = 2 then { pia with writtenPortB := data }
    else { pia with ddrb := data }

/-- `PIA._read_timer`: `(timer_target - cpu.clock) >> shift & 0xff`
while non-negative; on underflow, set the interrupt flag and return
`delta & 0xff` (Python's `&` of a negative int with `0xFF` is the
non-negative residue `delta mod 256`, i.e. `Int.emod`). -/
def piaReadTimer (pia : PiaState) (cpuClock : Int) : Nat × PiaState :=
  let delta : Int := pia.timerTarget - cpuClock
  if 0 ≤ delta then ((delta.toNat >>> pia.timerShift) &&& 0xFF, pia)
  else ((delta % 256).toNat, { pia with timerInterruptFlag := true })

lemma and_3_eq_mod (x : Nat) : x &&& 0x03 = x % 4 := by
  simpa using Nat.and_pow_two_sub_one_eq_mod x 2

lemma sub_mask_of_and_20 (addr m : Nat) (h : (0x14 : Nat) &&& m = m)
    (h14 : addr &&& 0x14 = 0x14) : addr &&& m = m := by
  have h2 := Nat.and_assoc addr 0x14 m
  rw [h14] at h2
  rw [h] at h2
  exact h2.symm

/-- C6: a write to an I/O address with `(addr & 0x14) == 0x14` loads
the timer: `timer_target = clock + value·2^shift` with shift drawn
from {0,3,6,10} by `addr mod 4`, and the interrupt flag cleared.
A timer read returns `(target − clock) / 2^shift mod 256` while the
difference is non-negative; on underflow it sets the interrupt flag
and returns `(target − clock) mod 256`, which continues counting down
by 1 per clock, wrapping at 0xFF. -/
theorem pia_timer_semantics :
    (∀ (pia : PiaState) (clock : Int) (addr data : Nat),
      addr &&& 0x200 ≠ 0 → addr &&& 0x14 = 0x14 →
      (piaPoke pia clock addr data).timerShift =
          TIMER_SHIFTS.getD (addr % 4) 0 ∧
      (piaPoke pia clock addr data).timerTarget =
          clock + (data % 256) * 2 ^ TIMER_SHIFTS.getD (addr % 4) 0 ∧
      (piaPoke pia clock addr data).timerInterruptFlag = false) ∧
    (∀ (pia : PiaState) (clock : Int), 0 ≤ pia.timerTarget - clock →
      (piaReadTimer pia clock).1 =
          (pia.timerTarget - clock).toNat / 2 ^ pia.timerShift % 256 ∧
      (piaReadTimer pia clock).2 = pia) ∧
    (∀ (pia : PiaState) (clock : Int), pia.timerTarget - clock < 0 →
      (piaReadTimer pia clock).1 = ((pia.timerTarget - clock) % 256).toNat ∧
      (piaReadTimer pia clock).2.timerInterruptFlag = true ∧
      (piaReadTimer pia (clock + 1)).1 =
        ((piaReadTimer pia clock).1 + 255) % 256) := by
  refine ⟨?_, ?_, ?_⟩
  · intro pia clock addr data h200 h14
    have h4 : addr &&& 0x04 = 0x04 := sub_mask_of_and_20 addr 0x04 (by decide) h14
    have h10 : addr &&& 0x10 = 0x10 := sub_mask_of_and_20 addr 0x10 (by decide) h14
    simp only [piaPoke]
    rw [if_neg h200, if_pos (by rw [h4]; norm_num), if_pos (by rw [h10]; norm_num)]
    refine ⟨by rw [and_3_eq_mod], ?_, rfl⟩
    rw [and_3_eq_mod, and_255_eq_mod, Nat.shiftLeft_eq]
    dsimp only
    push_cast
    ring
  · intro pia clock h
    simp only [piaReadTimer]
    rw [if_pos h]
    refine ⟨?_, rfl⟩
    rw [and_255_eq_mod, Nat.shiftRight_eq_div_pow]
  · intro pia clock h
    have h1 : pia.timerTarget - (clock + 1) < 0 := by omega
    simp only [piaReadTimer]
    rw [if_neg (by omega), if_neg (by omega)]
    refine ⟨rfl, rfl, ?_⟩
    omega

/-- Witness for C6: timer write at I/O address 0x294 (shift 0) with
value 0x1FF at clock 100. -/
theorem pia_timer_semantics_witness :
    (piaPoke piaReset 100 0x294 0x1FF).timerTarget = 100 + 255 * 2 ^ 0 :=
  (pia_timer_semantics.1 piaReset 100 0x294 0x1FF (by decide) (by decide)).2.1

/-! ## C8: Maria DMA billing (`Machine7800.compute_next_frame`, Phase 3) -/

/-- The KLAX safety valve: `while run_clocks + remaining < dma_clocks:
dma_clocks >>= 1`.  Fuel-bounded: each iteration halves `d`, so
`d + 1` units of fuel cover every terminating run of the Python loop
(the loop can only fail to terminate when the budget is negative with
`d = 0`, a state the frame loop never produces). -/
def klaxHalve : Nat → Int → Nat → Nat
  | 0, _, d => d
  | fuel + 1, budget, d =>
      if budget < (d : Int) then klaxHalve fuel budget (d >>> 1) else d

/-- The DMA clock count after the Ace-of-Aces title-flicker workaround
and the KLAX halving, i.e. the value actually rounded and billed. -/
def adjustedDma (scanline scanlines dmaClocks : Nat)
    (runClocks remaining : Int) : Nat :=
  let d := if ((scanline = 203 ∧ scanlines = 262) ∨
        (scanline = 228 ∧ scanlines = 312)) ∧
      dmaClocks = 152 ∧ remaining = 428 ∧ (runClocks = -4 ∨ runClocks = -8)
    then dmaClocks - 4 else dmaClocks
  klaxHalve (d + 1) (runClocks + remaining) d

/-- The number of DMA colour clocks subtracted from `cpu.run_clocks`:
when positive, the adjusted count rounded with
`dma_clocks += 4; dma_clocks -= dma_clocks & 3` if misaligned. -/
def billDma (scanline scanlines dmaClocks : Nat)
    (runClocks remaining : Int) : Nat :=
  let d := adjustedDma scanline scanlines dmaClocks runClocks remaining
  if 0 < d then (if d &&& 3 ≠ 0 then (d + 4) - ((d + 4) &&& 3) else d) else 0

/-- C8 counterexample: on scanline 203 of a 262-line frame with
reported DMA count 152, `remaining = 428` and `run_clocks = -4`, the
code bills 148 clocks, not 152 (the reported count rounded up to the
next multiple of 4): the Ace-of-Aces workaround adjusts the count
between the DMA report and the billing. -/
theorem dma_billing_not_reported_rounding :
    billDma 203 262 152 (-4) 428 = 148 ∧
    (152 + 3) / 4 * 4 = 152 ∧
    billDma 203 262 152 (-4) 428 ≠ (152 + 3) / 4 * 4 := by
  refine ⟨by decide, by decide, by decide⟩

/-- C8 (amended): whenever the adjusted DMA clock count (after the
title-flicker workaround and the budget halvings) is positive, the
amount subtracted from the CPU's cycle budget is that adjusted count
rounded up to the next multiple of 4. -/
theorem dma_billing_rounds_up (scanline scanlines dmaClocks : Nat)
    (runClocks remaining : Int)
    (h : 0 < adjustedDma scanline scanlines dmaClocks runClocks remaining) :
    billDma scanline scanlines dmaClocks runClocks remaining =
      (adjustedDma scanline scanlines dmaClocks runClocks remaining + 3)
        / 4 * 4 := by
  simp only [billDma]
  rw [if_pos h]
  have h1 := and_3_eq_mod
      (adjustedDma scanline scanlines dmaClocks runClocks remaining)
  have h2 := and_3_eq_mod
      (adjustedDma scanline scanlines dmaClocks runClocks remaining + 4)
  by_cases hb : adjustedDma scanline scanlines dmaClocks runClocks remaining
      &&& 3 ≠ 0
  · rw [if_pos hb, h2]
    rw [h1] at hb
    omega
  · rw [if_neg hb]
    rw [h1] at hb
    omega

/-- Witness for C8's amended theorem at the counterexample inputs. -/
theorem dma_billing_rounds_up_witness :
    billDma 203 262 152 (-4) 428 =
      (adjustedDma 203 262 152 (-4) 428 + 3) / 4 * 4 :=
  dma_billing_rounds_up 203 262 152 (-4) 428 (by decide)

/-! ## C4: Maria line-RAM building and output (`maria.py`) -/

/-- Pointwise function update (a `bytearray[i] = v` store). -/
def updF (f : Nat → Nat) (i v : Nat) : Nat → Nat :=
  fun j => if j = i then v else f j

/-- `Maria._word`: little-endian 16-bit word from two bytes. -/
def mariaWord (lsb msb : Nat) : Nat := ((msb &&& 0xFF) <<< 8) ||| (lsb &&& 0xFF)

/-- `Maria._dma_read`: read a byte from the address space at
`addr & 0xFFFF` (the `maria_read` latch has no effect on the value). -/
def dmaRead (mem : Nat → Nat) (addr : Nat) : Nat := mem (addr &&& 0xFFFF)

/-- `BACKGRND` register index in `maria.py`. -/
def BACKGRND : Nat := 0x20

/-- Parameters of `Maria._build_line_ram_160a` (fields of the `Maria`
object read by the renderer). -/
structure Maria160aEnv where
  mem : Nat → Nat
  indMode : Bool
  cwidth : Bool
  holey : Nat
  offset : Nat
  charbase : Nat
  paletteNo : Nat
  width : Nat
  hposReg : Nat

/-- Mutable state of the 160A render loops. -/
structure M160aState where
  hpos : Nat
  dataaddr : Nat
  lineRam : Nat → Nat

/-- One iteration of the inner `for _j in range(indbytes)` body of
`_build_line_ram_160a`: holey-DMA skip, or read a byte and emit four
doubled 2-bit pixels at `hpos & 0x1FF`. -/
def m160aInner (env : Maria160aEnv) (st : M160aState) : M160aState :=
  if (env.holey == 0x02 && ((st.dataaddr &&& 0x9000) == 0x9000)) ||
     (env.holey == 0x01 && ((st.dataaddr &&& 0x8800) == 0x8800)) then
    { st with hpos := st.hpos + 8, dataaddr := (st.dataaddr + 1) &&& 0xFFFF }
  else
    let d := dmaRead env.mem st.dataaddr
    let dataaddr := (st.dataaddr + 1) &&& 0xFFFF
    let hpos := st.hpos
    let lineRam := st.lineRam
    let c := (d &&& 0xC0) >>> 6
    let lineRam := if c ≠ 0 then
        updF (updF lineRam (hpos &&& 0x1FF) (env.paletteNo ||| c))
          ((hpos + 1) &&& 0x1FF) (env.paletteNo ||| c)
      else lineRam
    let hpos := hpos + 2
    let c := (d &&& 0x30) >>> 4
    let lineRam := if c ≠ 0 then
        updF (updF lineRam (hpos &&& 0x1FF) (env.paletteNo ||| c))
          ((hpos + 1) &&& 0x1FF) (env.paletteNo ||| c)
      else lineRam
    let hpos := hpos + 2
    let c := (d &&& 0x0C) >>> 2
    let lineRam := if c ≠ 0 then
        updF (updF lineRam (hpos &&& 0x1FF) (env.paletteNo ||| c))
          ((hpos + 1) &&& 0x1FF) (env.paletteNo ||| c)
      else lineRam
    let hpos := hpos + 2
    let c := d &&& 0x03
    let lineRam := if c ≠ 0 then
        updF (updF lineRam (hpos &&& 0x1FF) (env.paletteNo ||| c))
          ((hpos + 1) &&& 0x1FF) (env.paletteNo ||| c)
      else lineRam
    let hpos := hpos + 2
    { hpos := hpos, dataaddr := dataaddr, lineRam := lineRam }

/-- The inner loop, `indbytes` iterations. -/
def m160aInnerLoop (env : Maria160aEnv) : Nat → M160aState → M160aState
  | 0, st => st
  | n + 1, st => m160aInnerLoop env n (m160aInner env st)

/-- The outer `for i in range(width)` loop: in indirect mode the data
address is re-fetched through the character table for each `i`. -/
def m160aLoop (env : Maria160aEnv) (graphaddr : Nat) :
    Nat → Nat → M160aState → M160aState
  | 0, _, st => st
  | n + 1, i, st =>
      let st1 := if env.indMode then
          let da := mariaWord (dmaRead env.mem (graphaddr + i))
            (env.charbase + env.offset)
          { st with dataaddr := da }
        else st
      let indbytes := if env.indMode && env.cwidth then 2 else 1
      m160aLoop env graphaddr n (i + 1) (m160aInnerLoop env indbytes st1)

/-- `Maria._build_line_ram_160a`: returns the updated line-RAM. -/
def build160a (env : Maria160aEnv) (graphaddr : Nat)
    (lineRam : Nat → Nat) : Nat → Nat :=
  (m160aLoop env graphaddr env.width 0
    { hpos := env.hposReg <<< 1,
      dataaddr := (graphaddr + (env.offset <<< 8)) &&& 0xFFFF,
      lineRam := lineRam }).lineRam

/-- State threaded through `Maria._output_line_ram`'s loop. -/
structure OutputState where
  vbuf : Nat → Nat
  lineRam : Nat → Nat
  fbi : Nat

/-- The `for i in range(visible_pitch)` loop of `_output_line_ram`:
emit each line-RAM slot to the video buffer (background when the low
two bits are zero, else the indexed palette register), zero the slot,
and advance `fbi` with wraparound at `vbuf_len`. -/
def outputLineRamLoop (registers : Nat → Nat) (vbufLen : Nat) :
    Nat → Nat → OutputState → OutputState
  | 0, _, st => st
  | n + 1, i, st =>
      let colorIndex := st.lineRam i
      let v := if colorIndex &&& 3 = 0 then registers BACKGRND
               else registers (BACKGRND + colorIndex)
      let vbuf := updF st.vbuf st.fbi v
      let lineRam := updF st.lineRam i 0
      let fbi := st.fbi + 1
      let fbi := if fbi = vbufLen then 0 else fbi
      outputLineRamLoop registers vbufLen n (i + 1)
        { vbuf := vbuf, lineRam := lineRam, fbi := fbi }

/-- `Maria._output_line_ram`: target the frame-buffer scanline at
`(scanline + 1) * pitch mod len(vbuf)` and run the loop over the
`visible_pitch` slots. -/
def outputLineRam (registers lineRam vbuf : Nat → Nat)
    (vbufLen visiblePitch scanline : Nat) : OutputState :=
  outputLineRamLoop registers vbufLen visiblePitch 0
    { vbuf := vbuf, lineRam := lineRam,
      fbi := ((scanline + 1) * visiblePitch) % vbufLen }

lemma outputLineRamLoop_lineRam (registers : Nat → Nat) (vbufLen : Nat) :
    ∀ (n i : Nat) (st : OutputState) (j : Nat),
      (outputLineRamLoop registers vbufLen n i st).lineRam j =
        if i ≤ j ∧ j < i + n then 0 else st.lineRam j := by
  intro n
  induction n with
  | zero =>
    intro i st j
    rw [outputLineRamLoop, if_neg (by omega)]
  | succ n ih =>
    intro i st j
    rw [outputLineRamLoop, ih (i + 1)]
    dsimp only
    by_cases h1 : i ≤ j ∧ j < i + (n + 1)
    · rw [if_pos h1]
      by_cases h2 : i + 1 ≤ j ∧ j < i + 1 + n
      · rw [if_pos h2]
      · rw [if_neg h2]
        have hj : j = i := by omega
        subst hj
        simp [updF]
    · rw [if_neg h1, if_neg (by omega)]
      have hj : j ≠ i := by omega
      simp [updF, hj]

/-- Concrete 160A environment whose single graphics byte lands at
line-RAM indices 400 and 401 (horizontal position 200, doubled). -/
def env160cex : Maria160aEnv :=
  { mem := fun _ => 0xC0, indMode := false, cwidth := false, holey := 0,
    offset := 0, charbase := 0, paletteNo := 0, width := 1, hposReg := 200 }

/-- C4 counterexample: rendering a 160A byte at horizontal position
200 writes line-RAM slot 400, and `_output_line_ram` (pitch 320,
262-scanline buffer) leaves that slot nonzero — the 512-byte line-RAM
is *not* entirely cleared after the scanline is output. -/
theorem maria_lineram_not_fully_cleared :
    build160a env160cex 0x4000 (fun _ => 0) 400 = 3 ∧
    (outputLineRam (fun _ => 0) (build160a env160cex 0x4000 (fun _ => 0))
        (fun _ => 0) (320 * 262) 320 50).lineRam 400 = 3 ∧
    (outputLineRam (fun _ => 0) (build160a env160cex 0x4000 (fun _ => 0))
        (fun _ => 0) (320 * 262) 320 50).lineRam 400 ≠ 0 := by
  have hb : build160a env160cex 0x4000 (fun _ => 0) 400 = 3 := by decide
  have ho : (outputLineRam (fun _ => 0)
      (build160a env160cex 0x4000 (fun _ => 0))
      (fun _ => 0) (320 * 262) 320 50).lineRam 400 =
      build160a env160cex 0x4000 (fun _ => 0) 400 := by
    rw [outputLineRam, outputLineRamLoop_lineRam, if_neg (by omega)]
  refine ⟨hb, by rw [ho, hb], by rw [ho, hb]; omega⟩

/-- C4 (amended): `_output_line_ram` clears exactly the line-RAM slots
it reads — indices `0 .. visible_pitch − 1` — and every slot at index
`≥ visible_pitch` (including the wrap-around range 320..511) keeps its
value into the next scanline. -/
theorem maria_lineram_clear_only_visible
    (registers lineRam vbuf : Nat → Nat) (vbufLen pitch scanline j : Nat) :
    (outputLineRam registers lineRam vbuf vbufLen pitch scanline).lineRam j =
      if j < pitch then 0 else lineRam j := by
  rw [outputLineRam, outputLineRamLoop_lineRam]
  by_cases h : j < pitch
  · rw [if_pos (by omega), if_pos h]
  · rw [if_neg (by omega), if_neg h]

/-! ## C10: double-buffered input (`input_state.py`, `pia.py`) -/

/-- `InputState`: `nextInputState` is the staging buffer written by the
host; `inputState` is the captured buffer snapshotted once per frame;
`rotState` is the driving-controller rotation latch. -/
structure InputState where
  nextInputState : Nat → Nat
  inputState : Nat → Nat
  rotState : Nat → Nat

/-- `InputState._rot_gray_codes`. -/
def rotGrayCodes : List Nat := [0x0F, 0x0D, 0x0C, 0x0E]

/-- `sample_captured_controller_action_state`: bit `1 << action` of
captured slot `3 + player_no` (players 0-3 only).  Actions: Up = 0,
Down = 1, Left = 2, Right = 3, Trigger = 4. -/
def sampleCapturedControllerActionState (s : InputState)
    (playerNo action : Nat) : Bool :=
  if playerNo > 3 then false
  else (s.inputState (3 + playerNo) &&& (1 <<< action)) != 0

/-- `sample_captured_console_switch_state`: bit `1 << switch` of
captured slot 2. -/
def sampleCapturedConsoleSwitchState (s : InputState) (switch : Nat) : Bool :=
  (s.inputState 2 &&& (1 <<< switch)) != 0

/-- `sample_captured_driving_state`: scan Driving0..Driving3 action
bits (18..21) in the captured slot, latch the last active one into
`rotState`, and return its gray code (and the updated state). -/
def sampleCapturedDrivingState (s : InputState) (playerNo : Nat) :
    Nat × InputState :=
  if playerNo > 1 then (0, s)
  else
    let actionBits := s.inputState (3 + playerNo)
    let rot := s.rotState playerNo
    let rot := if actionBits &&& (1 <<< 18) ≠ 0 then 0 else rot
    let rot := if actionBits &&& (1 <<< 19) ≠ 0 then 1 else rot
    let rot := if actionBits &&& (1 <<< 20) ≠ 0 then 2 else rot
    let rot := if actionBits &&& (1 <<< 21) ≠ 0 then 3 else rot
    (rotGrayCodes.getD rot 0, { s with rotState := updF s.rotState playerNo rot })

/-- `PIA._read_port_a` (SWCHA).  The controller-jack tags come from the
`left_controller_jack` / `right_controller_jack` properties, which read
the *staging* buffer (`_next_input_state[0]` / `[1]`); everything else
is sampled from the captured buffer.  Jack tags: Joystick = 1,
Paddles = 2, Driving = 4, BoosterGrip = 5, ProLineJoystick = 6,
Lightgun = 7.  Python's active-low `b &= ~mask` on the byte-valued
`input_bits` is written as `b &&& (0xFF - mask)`; the DDR mix
`~ddra & 0xff` as `0xFF ^^^ (ddra &&& 0xFF)`. -/
def readPortA (s : InputState) (writtenPortA ddra : Nat) : Nat × InputState :=
  let inputBits := 0xFF
  let jack0 := s.nextInputState 0
  let jack1 := s.nextInputState 1
  let r0 : Nat × InputState :=
    if jack0 = 1 ∨ jack0 = 6 ∨ jack0 = 5 ∨ jack0 = 7 then
      let b := inputBits
      let b := if sampleCapturedControllerActionState s 0 0 then b &&& 0xEF else b
      let b := if sampleCapturedControllerActionState s 0 1 then b &&& 0xDF else b
      let b := if sampleCapturedControllerActionState s 0 2 then b &&& 0xBF else b
      let b := if sampleCapturedControllerActionState s 0 3 then b &&& 0x7F else b
      (b, s)
    else if jack0 = 4 then
      let g := sampleCapturedDrivingState s 0
      ((inputBits &&& 0x0F) ||| ((g.1 &&& 0x0F) <<< 4), g.2)
    else if jack0 = 2 then
      let b := inputBits
      let b := if sampleCapturedControllerActionState s 0 4 then b &&& 0x7F else b
      let b := if sampleCapturedControllerActionState s 1 4 then b &&& 0xBF else b
      (b, s)
    else (inputBits, s)
  let s1 := r0.2
  let r1 : Nat × InputState :=
    if jack1 = 1 ∨ jack1 = 6 ∨ jack1 = 5 ∨ jack1 = 7 then
      let b := r0.1
      let b := if sampleCapturedControllerActionState s1 1 0 then b &&& 0xFE else b
      let b := if sampleCapturedControllerActionState s1 1 1 then b &&& 0xFD else b
      let b := if sampleCapturedControllerActionState s1 1 2 then b &&& 0xFB else b
      let b := if sampleCapturedControllerActionState s1 1 3 then b &&& 0xF7 else b
      (b, s1)
    else if jack1 = 4 then
      let g := sampleCapturedDrivingState s1 1
      ((r0.1 &&& 0xF0) ||| (g.1 &&& 0x0F), g.2)
    else if jack1 = 2 then
      let b := r0.1
      let b := if sampleCapturedControllerActionState s1 2 4 then b &&& 0xF7 else b
      let b := if sampleCapturedControllerActionState s1 3 4 then b &&& 0xFB else b
      (b, s1)
    else (r0.1, s1)
  let inputBits := r1.1 &&& 0xFF
  ((writtenPortA &&& ddra) ||| (inputBits &&& (0xFF ^^^ (ddra &&& 0xFF))), r1.2)

/-- `PIA._read_port_b` (SWCHB): console switches, active-low, from the
captured buffer only. Switches: GameReset = 0, GameSelect = 1,
GameBW = 2, LeftDifficultyA = 3, RightDifficultyA = 4. -/
def readPortB (s : InputState) (writtenPortB ddrb : Nat) : Nat :=
  let b := 0xFF
  let b := if sampleCapturedConsoleSwitchState s 0 then b &&& 0xFE else b
  let b := if sampleCapturedConsoleSwitchState s 1 then b &&& 0xFD else b
  let b := if sampleCapturedConsoleSwitchState s 2 then b &&& 0xF7 else b
  let b := if sampleCapturedConsoleSwitchState s 3 then b &&& 0xBF else b
  let b := if sampleCapturedConsoleSwitchState s 4 then b &&& 0x7F else b
  (writtenPortB &&& ddrb) ||| (b &&& (0xFF ^^^ (ddrb &&& 0xFF)))

/-- Captured buffer for the C10 counterexample: player 0's Trigger
action is active (bit 4 of slot 3); jack slots 0 and 1 are zero. -/
def capturedCex : Nat → Nat := fun i => if i = 3 then 0x10 else 0

/-- Staging buffer advertising a Joystick (tag 1) in the left jack. -/
def stagingJoy : Nat → Nat := fun i => if i = 0 then 1 else 0

/-- Staging buffer advertising Paddles (tag 2) in the left jack. -/
def stagingPad : Nat → Nat := fun i => if i = 0 then 2 else 0

/-- Input state with Joystick staged and the shared captured buffer. -/
def inputJoyState : InputState :=
  { nextInputState := stagingJoy, inputState := capturedCex,
    rotState := fun _ => 0 }

/-- Input state with Paddles staged and the same captured buffer. -/
def inputPadState : InputState :=
  { nextInputState := stagingPad, inputState := capturedCex,
    rotState := fun _ => 0 }

/-- C10 counterexample: two states with *identical* captured buffers
(and rotation latches) but different staging jack slots produce
different SWCHA values — the jack tags are sampled from the staging
buffer, so identical captured arrays alone do not determine the
sampled values. -/
theorem port_a_depends_on_staging_jack :
    inputJoyState.inputState = inputPadState.inputState ∧
    inputJoyState.rotState = inputPadState.rotState ∧
    (readPortA inputJoyState 0 0).1 = 0xFF ∧
    (readPortA inputPadState 0 0).1 = 0x7F ∧
    (readPortA inputJoyState 0 0).1 ≠ (readPortA inputPadState 0 0).1 := by
  refine ⟨rfl, rfl, by decide, by decide, by decide⟩

lemma ite_fst {α β : Type} (P : Prop) [Decidable P] (a b : α × β) :
    (if P then a else b).1 = if P then a.1 else b.1 :=
  apply_ite Prod.fst P a b

lemma ite_snd {α β : Type} (P : Prop) [Decidable P] (a b : α × β) :
    (if P then a else b).2 = if P then a.2 else b.2 :=
  apply_ite Prod.snd P a b

lemma ite_inputState (P : Prop) [Decidable P] (a b : InputState) :
    (if P then a else b).inputState =
      if P then a.inputState else b.inputState :=
  apply_ite InputState.inputState P a b

lemma ite_rotState (P : Prop) [Decidable P] (a b : InputState) :
    (if P then a else b).rotState = if P then a.rotState else b.rotState :=
  apply_ite InputState.rotState P a b

/-- C10 (amended): the PIA's port samples are determined by the
captured buffer *together with* the staging jack slots [0] and [1] and
the driving rotation latch: two states agreeing on those produce
identical SWCHA and SWCHB values, whatever the rest of their staging
buffers contain. -/
theorem port_reads_determined_by_captured_and_jacks
    (s1 s2 : InputState) (wa da wb db : Nat)
    (hcap : s1.inputState = s2.inputState)
    (h0 : s1.nextInputState 0 = s2.nextInputState 0)
    (h1 : s1.nextInputState 1 = s2.nextInputState 1)
    (hrot : s1.rotState = s2.rotState) :
    (readPortA s1 wa da).1 = (readPortA s2 wa da).1 ∧
    readPortB s1 wb db = readPortB s2 wb db := by
  obtain ⟨n1, c1, r1⟩ := s1
  obtain ⟨n2, c2, r2⟩ := s2
  simp only at hcap h0 h1 hrot
  subst hcap hrot
  constructor
  · simp only [readPortA, sampleCapturedControllerActionState,
      sampleCapturedDrivingState, updF, ite_fst, ite_snd, ite_inputState,
      ite_rotState, ite_apply, ite_self, h0, h1]
  · simp only [readPortB, sampleCapturedConsoleSwitchState]

/-- Staging buffer equal to `stagingJoy` on the jack slots but
different elsewhere. -/
def stagingJoyAlt : Nat → Nat :=
  fun i => if i = 0 then 1 else if i = 1 then 0 else 99

/-- `inputJoyState` with the alternative staging buffer. -/
def inputJoyAltState : InputState :=
  { nextInputState := stagingJoyAlt, inputState := capturedCex,
    rotState := fun _ => 0 }

/-- Witness for C10's amended theorem: two states differing only in
staging slots other than the jacks give the same SWCHA value. -/
theorem port_reads_determined_witness :
    (readPortA inputJoyState 0 0).1 = (readPortA inputJoyAltState 0 0).1 :=
  (port_reads_determined_by_captured_and_jacks inputJoyState inputJoyAltState
    0 0 0 0 rfl (by decide) (by decide) rfl).1
